import Mathlib

/-!
Verification development for the Netflix-uk-age-filter repository.

The server keeps an in-memory catalog (`MemStorage` in the storage module):
a `Map` from a sequential numeric id to a catalog item (`Content`), rebuilt
wholesale from the TMDB API by `refreshContentFromAPI`, and queried by
`getAllContent`, `getContentByRating`, `searchContent` and `filterContent`.

JavaScript strings are modelled as Lean `String`s; the JS operations
`toLowerCase`, `trim`, `includes` and the `localeCompare`-based title sort are
modelled by structurally recursive functions over the character list (so that
they evaluate by `decide`).  The `Map` is modelled as an insertion-ordered
association list, matching JS `Map` iteration order.
-/

namespace NetflixUK

/-! ## String helpers -/

/-- Character-list lexicographic comparison; models `a.localeCompare(b) <= 0`
for the title sort comparator. -/
def leChars : List Char → List Char → Bool
  | [], _ => true
  | _ :: _, [] => false
  | a :: as, b :: bs => if a < b then true else if b < a then false else leChars as bs

/-- Lexicographic order on strings used by the title sort. -/
def leStr (a b : String) : Bool := leChars a.data b.data

/-- JS `s.toLowerCase()` (ASCII case folding on each character). -/
def lowerStr (s : String) : String := String.mk (s.data.map Char.toLower)

/-- JS `s.trim()`: drop leading and trailing whitespace. -/
def trimStr (s : String) : String :=
  String.mk (((s.data.dropWhile Char.isWhitespace).reverse.dropWhile Char.isWhitespace).reverse)

/-- Does the second list start with the first? -/
def startsWithChars : List Char → List Char → Bool
  | [], _ => true
  | _ :: _, [] => false
  | a :: as, b :: bs => a == b && startsWithChars as bs

/-- Does the pattern occur as a contiguous run inside the list? -/
def hasSubstrChars (pat : List Char) : List Char → Bool
  | [] => startsWithChars pat []
  | b :: bs => startsWithChars pat (b :: bs) || hasSubstrChars pat bs

/-- JS `s.includes(pat)`. -/
def containsSubstr (s pat : String) : Bool := hasSubstrChars pat.data s.data

theorem leChars_total (a b : List Char) : leChars a b = true ∨ leChars b a = true := by
  induction a generalizing b with
  | nil => left; rfl
  | cons x xs ih =>
    cases b with
    | nil => right; rfl
    | cons y ys =>
      rcases lt_trichotomy x y with h | h | h
      · left; simp [leChars, h]
      · subst h
        rcases ih ys with h2 | h2
        · left; simp [leChars, lt_irrefl, h2]
        · right; simp [leChars, lt_irrefl, h2]
      · right; simp [leChars, h]

theorem leChars_cons_iff (x y : Char) (xs ys : List Char) :
    leChars (x :: xs) (y :: ys) = true ↔ x < y ∨ (x = y ∧ leChars xs ys = true) := by
  simp only [leChars]
  by_cases h1 : x < y
  · simp [h1]
  · by_cases h2 : y < x
    · simp [h1, h2]
      intro h
      exact absurd h2 (by simp [h, lt_irrefl])
    · have hxy : x = y := le_antisymm (le_of_not_lt h2) (le_of_not_lt h1)
      simp [h1, h2, hxy]

theorem leChars_trans (a b c : List Char) (hab : leChars a b = true)
    (hbc : leChars b c = true) : leChars a c = true := by
  induction a generalizing b c with
  | nil => rfl
  | cons x xs ih =>
    cases b with
    | nil => simp [leChars] at hab
    | cons y ys =>
      cases c with
      | nil => simp [leChars] at hbc
      | cons z zs =>
        rw [leChars_cons_iff] at hab hbc ⊢
        rcases hab with h1 | ⟨h1, h1t⟩
        · rcases hbc with h2 | ⟨h2, _⟩
          · exact Or.inl (lt_trans h1 h2)
          · exact Or.inl (h2 ▸ h1)
        · rcases hbc with h2 | ⟨h2, h2t⟩
          · exact Or.inl (h1 ▸ h2)
          · exact Or.inr ⟨h1.trans h2, ih _ _ h1t h2t⟩

theorem leStr_total (a b : String) : leStr a b = true ∨ leStr b a = true :=
  leChars_total a.data b.data

theorem leStr_trans (a b c : String) (hab : leStr a b = true) (hbc : leStr b c = true) :
    leStr a c = true :=
  leChars_trans a.data b.data c.data hab hbc

/-! ## Data model: a catalog item, from the `content` table declaration in the
shared schema (shared/schema.ts). -/

structure Content where
  id : Nat
  title : String
  year : String
  rating : String
  genre : String
  description : String
  imageUrl : String
  type : String
  language : String
  tmdbId : Option Nat
deriving DecidableEq, Repr

/-- Non-strict title order on catalog items, the order required of results. -/
def titleLe (a b : Content) : Prop := leStr a.title b.title = true

instance : DecidablePred fun p : Content × Content => titleLe p.1 p.2 := by
  intro p; unfold titleLe; infer_instance

instance (a b : Content) : Decidable (titleLe a b) := by
  unfold titleLe; infer_instance

/-! ## Title sort

Models `array.sort((a, b) => a.title.localeCompare(b.title))`: a stable sort
keyed on the title, written as an insertion sort (any stable sort keyed on the
same comparator computes the same list). -/

/-- Stable insertion: the new item goes in front of the first position it
compares less-or-equal to. -/
def insertByTitle (c : Content) : List Content → List Content
  | [] => [c]
  | x :: xs => if leStr c.title x.title then c :: x :: xs else x :: insertByTitle c xs

def sortByTitle : List Content → List Content
  | [] => []
  | x :: xs => insertByTitle x (sortByTitle xs)

theorem mem_insertByTitle (a c : Content) (l : List Content) :
    a ∈ insertByTitle c l ↔ a = c ∨ a ∈ l := by
  induction l with
  | nil => simp [insertByTitle]
  | cons x xs ih =>
    simp only [insertByTitle]
    by_cases h : leStr c.title x.title = true
    · simp [h]
    · simp only [h]
      simp [ih]
      tauto

theorem mem_sortByTitle (a : Content) (l : List Content) :
    a ∈ sortByTitle l ↔ a ∈ l := by
  induction l with
  | nil => simp [sortByTitle]
  | cons x xs ih => simp [sortByTitle, mem_insertByTitle, ih]

theorem pairwise_insertByTitle (c : Content) (l : List Content)
    (h : List.Pairwise titleLe l) : List.Pairwise titleLe (insertByTitle c l) := by
  induction l with
  | nil => simp [insertByTitle, List.Pairwise]
  | cons x xs ih =>
    simp only [insertByTitle]
    rcases List.pairwise_cons.mp h with ⟨hx, hxs⟩
    by_cases hc : leStr c.title x.title = true
    · simp only [hc, if_true]
      refine List.pairwise_cons.mpr ⟨?_, h⟩
      intro b hb
      rcases List.mem_cons.mp hb with rfl | hb
      · exact hc
      · exact leStr_trans _ _ _ hc (hx b hb)
    · simp only [hc, if_false]
      refine List.pairwise_cons.mpr ⟨?_, ih hxs⟩
      intro b hb
      rcases (mem_insertByTitle b c xs).mp hb with hbc | hb
      · rw [show titleLe x b = (leStr x.title b.title = true) from rfl, hbc]
        rcases leStr_total c.title x.title with ht | ht
        · exact absurd ht hc
        · exact ht
      · exact hx b hb

theorem pairwise_sortByTitle (l : List Content) : List.Pairwise titleLe (sortByTitle l) := by
  induction l with
  | nil => simp [sortByTitle]
  | cons x xs ih => exact pairwise_insertByTitle x (sortByTitle xs) ih

theorem insertByTitle_of_head_le (c : Content) (l : List Content)
    (h : ∀ x ∈ l.head?, leStr c.title x.title = true) : insertByTitle c l = c :: l := by
  cases l with
  | nil => rfl
  | cons x xs => simp [insertByTitle, h x (by simp)]

theorem sortByTitle_eq_self (l : List Content) (h : List.Pairwise titleLe l) :
    sortByTitle l = l := by
  induction l with
  | nil => rfl
  | cons x xs ih =>
    rcases List.pairwise_cons.mp h with ⟨hx, hxs⟩
    simp only [sortByTitle, ih hxs]
    refine insertByTitle_of_head_le x xs ?_
    intro y hy
    exact hx y (by cases xs <;> simp_all)

theorem sortByTitle_idem (l : List Content) : sortByTitle (sortByTitle l) = sortByTitle l :=
  sortByTitle_eq_self _ (pairwise_sortByTitle l)

/-! ## Rating lookup tables (storage module lines 15-36 and 298-309) -/

/-- Map US/International ratings to UK ratings (`mapToUKRating`). -/
def mapToUKRating (usRating : String) : String :=
  match usRating with
  | "G" | "TV-Y" | "TV-G" => "U"
  | "PG" | "TV-PG" => "PG"
  | "PG-13" | "TV-14" => "PG 13"
  | "R" | "TV-MA" => "15"
  | "NC-17" | "X" => "18"
  | "Not Rated" | "Unrated" => "12"
  | "Approved" | "Passed" => "PG"
  | "M" => "15"
  | "TV-Y7" => "PG"
  | _ => "12"

/-- `MemStorage.mapTMDBToUKRating`. -/
def mapTMDBToUKRating (certification : String) : String :=
  match certification with
  | "U" => "U"
  | "PG" => "PG"
  | "12A" | "12" => "12"
  | "15" => "15"
  | "18" | "R18" => "18"
  | _ => "12"

/-- The fixed UK rating vocabulary documented on the `content.rating` column
in the shared schema and offered by the client filter UI. -/
def ukRatingVocabulary : List String := ["U", "PG", "12", "15", "18"]

/-! ## The filter routine (`MemStorage.filterContent`, storage module
lines 352-404), applied to the list of table values
(`Array.from(this.content.values())`). -/

/-- The `hasFilters` flag computed at line 362: some rating selected, or a
non-empty languages array supplied, or a non-empty genres array supplied, or a
search query that is truthy and not trim-blank. -/
def hasFilters (ratings : List String) (languages genres : Option (List String))
    (searchQuery : Option String) : Bool :=
  !ratings.isEmpty
    || (match languages with | some ls => !ls.isEmpty | none => false)
    || (match genres with | some gs => !gs.isEmpty | none => false)
    || (match searchQuery with | some q => !(trimStr q == "") | none => false)

/-- `MemStorage.filterContent`.  The source returns early with the full sorted
table when `hasFilters` is false; otherwise it applies the four category
filters in sequence and sorts the remainder.  A `searchQuery` that is the
empty string is falsy in the source, so `some ""` behaves like `none`. -/
def filterContent (tbl : List Content) (ratings : List String)
    (languages genres : Option (List String)) (searchQuery : Option String) :
    List Content :=
  if hasFilters ratings languages genres searchQuery then
    let f1 :=
      if !ratings.isEmpty then
        tbl.filter (fun item => ratings.contains item.rating)
      else tbl
    let f2 :=
      match languages with
      | some ls => if !ls.isEmpty then f1.filter (fun item => ls.contains item.language) else f1
      | none => f1
    let f3 :=
      match genres with
      | some gs => if !gs.isEmpty then f2.filter (fun item => gs.contains item.genre) else f2
      | none => f2
    let f4 :=
      match searchQuery with
      | some q =>
        if !(trimStr q == "") then
          f3.filter (fun item =>
            containsSubstr (lowerStr item.title) (trimStr (lowerStr q))
              || containsSubstr (lowerStr item.genre) (trimStr (lowerStr q))
              || containsSubstr (lowerStr item.description) (trimStr (lowerStr q)))
        else f3
      | none => f3
    sortByTitle f4
  else
    sortByTitle tbl

/-! ## The four filter categories, taken one at a time -/

inductive FilterCat where
  | byRatings
  | byLanguages
  | byGenres
  | bySearch
deriving DecidableEq, Repr

/-- One category's filtering pass over a list, exactly as the corresponding
block of `filterContent` performs it (a skipped pass leaves the list alone). -/
def applyCat (ratings : List String) (languages genres : Option (List String))
    (searchQuery : Option String) : FilterCat → List Content → List Content
  | .byRatings, l =>
    if !ratings.isEmpty then l.filter (fun item => ratings.contains item.rating) else l
  | .byLanguages, l =>
    match languages with
    | some ls => if !ls.isEmpty then l.filter (fun item => ls.contains item.language) else l
    | none => l
  | .byGenres, l =>
    match genres with
    | some gs => if !gs.isEmpty then l.filter (fun item => gs.contains item.genre) else l
    | none => l
  | .bySearch, l =>
    match searchQuery with
    | some q =>
      if !(trimStr q == "") then
        l.filter (fun item =>
          containsSubstr (lowerStr item.title) (trimStr (lowerStr q))
            || containsSubstr (lowerStr item.genre) (trimStr (lowerStr q))
            || containsSubstr (lowerStr item.description) (trimStr (lowerStr q)))
      else l
    | none => l

/-- The per-item predicate of one category: a category with no constraint
selected accepts every item, otherwise acceptance is membership in the
selected set (for the search category: a case-insensitive substring match of
the lowercased, trimmed query against title, genre or description). -/
def catPass (ratings : List String) (languages genres : Option (List String))
    (searchQuery : Option String) : FilterCat → Content → Bool
  | .byRatings, item => ratings.isEmpty || ratings.contains item.rating
  | .byLanguages, item =>
    match languages with
    | some ls => ls.isEmpty || ls.contains item.language
    | none => true
  | .byGenres, item =>
    match genres with
    | some gs => gs.isEmpty || gs.contains item.genre
    | none => true
  | .bySearch, item =>
    match searchQuery with
    | some q =>
      (trimStr q == "")
        || (containsSubstr (lowerStr item.title) (trimStr (lowerStr q))
            || containsSubstr (lowerStr item.genre) (trimStr (lowerStr q))
            || containsSubstr (lowerStr item.description) (trimStr (lowerStr q)))
    | none => true

/-- Conjunction of the four category predicates. -/
def passesFilters (ratings : List String) (languages genres : Option (List String))
    (searchQuery : Option String) (item : Content) : Bool :=
  catPass ratings languages genres searchQuery .byRatings item
    && catPass ratings languages genres searchQuery .byLanguages item
    && catPass ratings languages genres searchQuery .byGenres item
    && catPass ratings languages genres searchQuery .bySearch item

theorem applyCat_eq_filter (ratings : List String) (languages genres : Option (List String))
    (searchQuery : Option String) (cat : FilterCat) (l : List Content) :
    applyCat ratings languages genres searchQuery cat l
      = l.filter (catPass ratings languages genres searchQuery cat) := by
  cases cat with
  | byRatings =>
    cases h : ratings.isEmpty with
    | true =>
      rw [show applyCat ratings languages genres searchQuery .byRatings l = l by
        simp [applyCat, h]]
      exact (List.filter_eq_self.mpr (fun a _ => by simp [catPass, h])).symm
    | false =>
      rw [show applyCat ratings languages genres searchQuery .byRatings l
          = l.filter (fun item => ratings.contains item.rating) by simp [applyCat, h]]
      exact List.filter_congr (fun a _ => by simp [catPass, h])
  | byLanguages =>
    cases languages with
    | none =>
      exact (List.filter_eq_self.mpr (fun a _ => by simp [catPass])).symm
    | some ls =>
      cases h : ls.isEmpty with
      | true =>
        rw [show applyCat ratings (some ls) genres searchQuery .byLanguages l = l by
          simp [applyCat, h]]
        exact (List.filter_eq_self.mpr (fun a _ => by simp [catPass, h])).symm
      | false =>
        rw [show applyCat ratings (some ls) genres searchQuery .byLanguages l
            = l.filter (fun item => ls.contains item.language) by simp [applyCat, h]]
        exact List.filter_congr (fun a _ => by simp [catPass, h])
  | byGenres =>
    cases genres with
    | none =>
      exact (List.filter_eq_self.mpr (fun a _ => by simp [catPass])).symm
    | some gs =>
      cases h : gs.isEmpty with
      | true =>
        rw [show applyCat ratings languages (some gs) searchQuery .byGenres l = l by
          simp [applyCat, h]]
        exact (List.filter_eq_self.mpr (fun a _ => by simp [catPass, h])).symm
      | false =>
        rw [show applyCat ratings languages (some gs) searchQuery .byGenres l
            = l.filter (fun item => gs.contains item.genre) by simp [applyCat, h]]
        exact List.filter_congr (fun a _ => by simp [catPass, h])
  | bySearch =>
    cases searchQuery with
    | none =>
      exact (List.filter_eq_self.mpr (fun a _ => by simp [catPass])).symm
    | some q =>
      cases h : (trimStr q == "") with
      | true =>
        rw [show applyCat ratings languages genres (some q) .bySearch l = l by
          simp [applyCat, h]]
        exact (List.filter_eq_self.mpr (fun a _ => by simp [catPass, h])).symm
      | false =>
        rw [show applyCat ratings languages genres (some q) .bySearch l
            = l.filter (fun item =>
              containsSubstr (lowerStr item.title) (trimStr (lowerStr q))
                || containsSubstr (lowerStr item.genre) (trimStr (lowerStr q))
                || containsSubstr (lowerStr item.description) (trimStr (lowerStr q))) by
          simp [applyCat, h]]
        exact List.filter_congr (fun a _ => by simp [catPass, h])

theorem applyCats_eq_filter (ratings : List String) (languages genres : Option (List String))
    (searchQuery : Option String) (tbl : List Content) :
    applyCat ratings languages genres searchQuery .bySearch
        (applyCat ratings languages genres searchQuery .byGenres
          (applyCat ratings languages genres searchQuery .byLanguages
            (applyCat ratings languages genres searchQuery .byRatings tbl)))
      = tbl.filter (passesFilters ratings languages genres searchQuery) := by
  rw [applyCat_eq_filter, applyCat_eq_filter, applyCat_eq_filter, applyCat_eq_filter,
    List.filter_filter, List.filter_filter, List.filter_filter]
  apply List.filter_congr
  intro a _
  simp only [passesFilters]
  generalize catPass ratings languages genres searchQuery FilterCat.byRatings a = bR
  generalize catPass ratings languages genres searchQuery FilterCat.byLanguages a = bL
  generalize catPass ratings languages genres searchQuery FilterCat.byGenres a = bG
  generalize catPass ratings languages genres searchQuery FilterCat.bySearch a = bS
  cases bR <;> cases bL <;> cases bG <;> cases bS <;> rfl

theorem catPass_of_not_hasFilters (ratings : List String)
    (languages genres : Option (List String)) (searchQuery : Option String)
    (h : hasFilters ratings languages genres searchQuery = false)
    (cat : FilterCat) (item : Content) :
    catPass ratings languages genres searchQuery cat item = true := by
  simp only [hasFilters, Bool.or_eq_false_iff, Bool.not_eq_false'] at h
  obtain ⟨⟨⟨hr, hl⟩, hg⟩, hq⟩ := h
  cases cat with
  | byRatings => simp [catPass, hr]
  | byLanguages => cases languages with
    | none => rfl
    | some ls => simp_all [catPass]
  | byGenres => cases genres with
    | none => rfl
    | some gs => simp_all [catPass]
  | bySearch => cases searchQuery with
    | none => rfl
    | some q => simp_all [catPass]

/-- Characterization of `filterContent`: both branches of the routine compute
the title sort of the one-pass conjunctive filter. -/
theorem filterContent_eq_filter (tbl : List Content) (ratings : List String)
    (languages genres : Option (List String)) (searchQuery : Option String) :
    filterContent tbl ratings languages genres searchQuery
      = sortByTitle (tbl.filter (passesFilters ratings languages genres searchQuery)) := by
  by_cases hF : hasFilters ratings languages genres searchQuery = true
  · have hstep : filterContent tbl ratings languages genres searchQuery
        = sortByTitle (applyCat ratings languages genres searchQuery .bySearch
            (applyCat ratings languages genres searchQuery .byGenres
              (applyCat ratings languages genres searchQuery .byLanguages
                (applyCat ratings languages genres searchQuery .byRatings tbl)))) := by
      simp only [filterContent, hF, if_true, applyCat]
    rw [hstep, applyCats_eq_filter]
  · have hF' : hasFilters ratings languages genres searchQuery = false := by
      simpa using hF
    have hfill : tbl.filter (passesFilters ratings languages genres searchQuery) = tbl := by
      apply List.filter_eq_self.mpr
      intro a _
      simp [passesFilters, catPass_of_not_hasFilters ratings languages genres searchQuery hF']
    rw [hfill]
    simp only [filterContent, hF', Bool.false_eq_true, if_false]

/-! ## The in-memory storage (`MemStorage`)

The `users` map and its operations are omitted: no claim concerns them.  The
wall clock (`new Date()`) is passed in as a `Nat` parameter, and the TMDB API
interaction of one build cycle is passed in as an `ApiOutcome` value. -/

structure StorageState where
  content : List (Nat × Content)
  currentContentId : Nat
  lastUpdateTime : Nat
  isUpdating : Bool
  catalogReady : Bool
deriving DecidableEq, Repr

/-- The state set up by the `MemStorage` constructor (before the asynchronous
initial refresh kicks off). -/
def initialState : StorageState :=
  { content := [], currentContentId := 1, lastUpdateTime := 0,
    isUpdating := false, catalogReady := false }

/-- JS `Array.from(this.content.values())`: the stored items in insertion
order. -/
def contentValues (s : StorageState) : List Content := s.content.map Prod.snd

/-- Static language-code lookup table (storage module lines 213-247);
codes outside the table map to `Other` (line 249). -/
def languageMap (code : String) : String :=
  match code with
  | "en" => "English" | "es" => "Spanish" | "fr" => "French" | "de" => "German"
  | "it" => "Italian" | "ja" => "Japanese" | "ko" => "Korean" | "zh" => "Chinese"
  | "hi" => "Hindi" | "pt" => "Portuguese" | "ru" => "Russian" | "ar" => "Arabic"
  | "th" => "Thai" | "tr" => "Turkish" | "nl" => "Dutch" | "sv" => "Swedish"
  | "da" => "Danish" | "no" => "Norwegian" | "fi" => "Finnish" | "pl" => "Polish"
  | "cs" => "Czech" | "hu" => "Hungarian" | "ro" => "Romanian" | "bg" => "Bulgarian"
  | "hr" => "Croatian" | "sr" => "Serbian" | "sk" => "Slovak" | "sl" => "Slovenian"
  | "et" => "Estonian" | "lv" => "Latvian" | "lt" => "Lithuanian" | "mt" => "Maltese"
  | "ga" => "Irish"
  | _ => "Other"

/-- The fields read off one discovered TMDB item and its detail response
(after JSON decoding, which is the environment's business).  An `Option`
field is `none` when the source's truthiness / find test fails for it. -/
structure TMDBDetail where
  mediaTypeIsMovie : Bool
  titleOrName : String
  releaseDate : String
  gbCertification : Option String
  genres0 : Option String
  overview : Option String
  posterPath : Option String
  originalLanguage : String
  tmdbId : Nat
deriving DecidableEq, Repr

/-- Building one `Content` record from a detail response
(storage module lines 198-265), given the id it is assigned. -/
def mkContent (cid : Nat) (d : TMDBDetail) : Content :=
  { id := cid
    title := d.titleOrName
    year :=
      let y := String.mk (d.releaseDate.data.take 4)
      if y == "" then "Unknown" else y
    rating :=
      match d.gbCertification with
      | some cert => mapTMDBToUKRating cert
      | none => "12"
    genre := d.genres0.getD "Drama"
    description := d.overview.getD "No description available"
    imageUrl :=
      match d.posterPath with
      | some p => "https://image.tmdb.org/t/p/w500" ++ p
      | none => "https://images.unsplash.com/photo-1440404653325-ab127d49abc1?w=400&h=600&fit=crop"
    type := if d.mediaTypeIsMovie then "movie" else "series"
    language := languageMap d.originalLanguage
    tmdbId := some d.tmdbId }

/-- Outcome of one build cycle's TMDB interaction. `apiError` models a failure
that escapes to the outer catch of `buildNetflixCatalogFromTMDB` (lines
292-295); `apiOk items` models the per-item outcomes of the discovery and
detail phases in processing order, where a `none` entry is an item whose
detail processing failed and was skipped (lines 272-274); page-level fetch
failures simply shorten the list, since the discovery loops break out. -/
inductive ApiOutcome where
  | apiError
  | apiOk (items : List (Option TMDBDetail))
deriving DecidableEq, Repr

/-- Processing of one discovered item (lines 190-275): on success the item is
assigned the next sequential id and inserted under that key; on failure
nothing happens. -/
def processItem (s : StorageState) (it : Option TMDBDetail) : StorageState :=
  match it with
  | none => s
  | some d =>
    let cid := s.currentContentId
    { s with
      content := s.content ++ [(cid, mkContent cid d)]
      currentContentId := cid + 1 }

/-- `MemStorage.buildNetflixCatalogFromTMDB` (lines 125-296).  On an error
escaping to the outer catch, only `isUpdating` is reset.  Otherwise every
discovered item is processed in order; the source also promotes
`catalogReady` at batch checkpoints once 1000 items are stored (lines
280-287), modelled here once after the processing loop (no modelled query
reads `catalogReady`, it only gates a log line in `filterContent`). -/
def buildNetflixCatalogFromTMDB (api : ApiOutcome) (s : StorageState) : StorageState :=
  match api with
  | .apiError => { s with isUpdating := false }
  | .apiOk items =>
    let s1 := items.foldl processItem s
    if !s1.catalogReady && decide (1000 ≤ s1.content.length) then
      { s1 with catalogReady := true }
    else s1

/-- `MemStorage.refreshContentFromAPI` (lines 105-123): skip when a refresh is
already in progress; otherwise set the busy flag, clear the table, reset the
id counter, run the build, then stamp the update time and clear the busy
flag. -/
def refreshContentFromAPI (api : ApiOutcome) (now : Nat) (s : StorageState) : StorageState :=
  if s.isUpdating then s
  else
    let s1 := { s with isUpdating := true, content := [], currentContentId := 1 }
    let s2 := buildNetflixCatalogFromTMDB api s1
    { s2 with lastUpdateTime := now, isUpdating := false }

/-! ## The read operations (storage module lines 331-350) -/

def getAllContent (s : StorageState) : List Content :=
  sortByTitle (contentValues s)

def getContentByRating (s : StorageState) (rating : String) : List Content :=
  sortByTitle ((contentValues s).filter (fun item => item.rating == rating))

def searchContent (s : StorageState) (query : String) : List Content :=
  sortByTitle ((contentValues s).filter (fun item =>
    containsSubstr (lowerStr item.title) (lowerStr query)
      || containsSubstr (lowerStr item.genre) (lowerStr query)
      || containsSubstr (lowerStr item.description) (lowerStr query)))

/-! ## Claim C1's description of the filter, stated from the claim's words
(for comparison against `filterContent`) -/

/-- Claim C1's search constraint exactly as worded: the item's title, genre,
or description contains the query, verbatim, as a case-insensitive
substring. -/
def specSearchMatch (q : String) (item : Content) : Bool :=
  containsSubstr (lowerStr item.title) (lowerStr q)
    || containsSubstr (lowerStr item.genre) (lowerStr q)
    || containsSubstr (lowerStr item.description) (lowerStr q)

/-- Claim C1's per-item acceptance as worded: membership for each non-empty
set constraint, all supplied constraints together, and a supplied non-empty
search string matched verbatim. -/
def specPassesC1 (ratings : List String) (languages genres : Option (List String))
    (searchQuery : Option String) (item : Content) : Bool :=
  (ratings.isEmpty || ratings.contains item.rating)
    && (match languages with
        | some ls => ls.isEmpty || ls.contains item.language
        | none => true)
    && (match genres with
        | some gs => gs.isEmpty || gs.contains item.genre
        | none => true)
    && (match searchQuery with
        | some q => (q == "") || specSearchMatch q item
        | none => true)

/-- Claim C1's described result: exactly the accepted items, sorted by
title. -/
def specFilterC1 (tbl : List Content) (ratings : List String)
    (languages genres : Option (List String)) (searchQuery : Option String) :
    List Content :=
  sortByTitle (tbl.filter (specPassesC1 ratings languages genres searchQuery))

/-- Claim C1's per-item acceptance with the amendment the code forces: the
search constraint counts as non-empty only when the query is not blank after
trimming, and it matches the lowercased, whitespace-trimmed query. -/
def specPassesC1Amended (ratings : List String) (languages genres : Option (List String))
    (searchQuery : Option String) (item : Content) : Bool :=
  (ratings.isEmpty || ratings.contains item.rating)
    && (match languages with
        | some ls => ls.isEmpty || ls.contains item.language
        | none => true)
    && (match genres with
        | some gs => gs.isEmpty || gs.contains item.genre
        | none => true)
    && (match searchQuery with
        | some q =>
          (trimStr q == "")
            || containsSubstr (lowerStr item.title) (trimStr (lowerStr q))
            || containsSubstr (lowerStr item.genre) (trimStr (lowerStr q))
            || containsSubstr (lowerStr item.description) (trimStr (lowerStr q))
        | none => true)

/-- The amended C1 result. -/
def specFilterC1Amended (tbl : List Content) (ratings : List String)
    (languages genres : Option (List String)) (searchQuery : Option String) :
    List Content :=
  sortByTitle (tbl.filter (specPassesC1Amended ratings languages genres searchQuery))

/-! ## Concrete sample data used by witnesses and counterexamples -/

def itemAB : Content :=
  { id := 1, title := "ab", year := "2020", rating := "PG", genre := "Drama",
    description := "plain", imageUrl := "u", type := "movie", language := "English",
    tmdbId := none }

def itemZed : Content :=
  { id := 2, title := "zed", year := "2021", rating := "15", genre := "Horror",
    description := "spooky", imageUrl := "u2", type := "series", language := "Korean",
    tmdbId := some 7 }

def itemAlpha : Content :=
  { id := 3, title := "alpha", year := "1999", rating := "U", genre := "Comedy",
    description := "fun", imageUrl := "u3", type := "movie", language := "Spanish",
    tmdbId := some 9 }

def previousState : StorageState :=
  { content := [(1, itemAB)], currentContentId := 2, lastUpdateTime := 3,
    isUpdating := false, catalogReady := true }

def busyState : StorageState :=
  { content := [(1, itemAB)], currentContentId := 2, lastUpdateTime := 3,
    isUpdating := true, catalogReady := true }

def sampleDetail : TMDBDetail :=
  { mediaTypeIsMovie := true, titleOrName := "Zeta", releaseDate := "2020-01-02",
    gbCertification := some "12A", genres0 := some "Action", overview := some "boom",
    posterPath := none, originalLanguage := "en", tmdbId := 42 }

def sampleDetail2 : TMDBDetail :=
  { mediaTypeIsMovie := false, titleOrName := "Beta", releaseDate := "",
    gbCertification := none, genres0 := none, overview := none,
    posterPath := some "/p.jpg", originalLanguage := "xx", tmdbId := 43 }

/-- The uniqueness invariant of the table: no two stored entries share a key,
and each stored item's `id` field equals its key. -/
def UniqueIds (s : StorageState) : Prop :=
  List.Pairwise (fun a b => a ≠ b) (s.content.map Prod.fst)
    ∧ ∀ p ∈ s.content, p.2.id = p.1

instance (s : StorageState) : Decidable (UniqueIds s) := by
  unfold UniqueIds; infer_instance

/-! ## Remaining helper lemmas -/

theorem all_perm {α : Type} (f : α → Bool) {cs cs' : List α} (h : cs.Perm cs') :
    cs.all f = cs'.all f := by
  cases hb : cs'.all f with
  | true =>
    rw [List.all_eq_true] at hb ⊢
    intro x hx
    exact hb x (h.subset hx)
  | false =>
    cases hb2 : cs.all f with
    | false => rfl
    | true =>
      rw [List.all_eq_true] at hb2
      have : cs'.all f = true := List.all_eq_true.mpr fun x hx => hb2 x (h.symm.subset hx)
      rw [this] at hb
      exact absurd hb (by simp)

theorem foldl_applyCat_eq_filter (ratings : List String)
    (languages genres : Option (List String)) (searchQuery : Option String)
    (cs : List FilterCat) (tbl : List Content) :
    cs.foldl (fun acc cat => applyCat ratings languages genres searchQuery cat acc) tbl
      = tbl.filter (fun item => cs.all
          (fun cat => catPass ratings languages genres searchQuery cat item)) := by
  induction cs generalizing tbl with
  | nil => simp
  | cons c cs ih =>
    simp only [List.foldl_cons, List.all_cons]
    rw [applyCat_eq_filter, ih, List.filter_filter]
    apply List.filter_congr
    intro a _
    generalize catPass ratings languages genres searchQuery c a = b1
    generalize (cs.all fun cat => catPass ratings languages genres searchQuery cat a) = b2
    cases b1 <;> cases b2 <;> rfl

/-! ## Claims -/

/-- C3: the claim says both static rating lookups land in the UK vocabulary
{U, PG, 12, 15, 18} with unlisted codes defaulting to `12`.  The code
violates it: `mapToUKRating` sends `PG-13` and `TV-14` to the string
`PG 13`, which is outside the vocabulary documented on the schema's rating
column and offered by the client's rating filter. -/
theorem C3_mapToUKRating_escapes_vocabulary :
    mapToUKRating "PG-13" = "PG 13" ∧ mapToUKRating "TV-14" = "PG 13"
      ∧ ukRatingVocabulary.contains "PG 13" = false
      ∧ mapTMDBToUKRating "PG-13" = "12" := by decide

/-- C9: when the busy flag `isUpdating` is set, `refreshContentFromAPI`
returns immediately and the whole state — table, id counter, busy flag,
last-update time — is unchanged. -/
theorem C9_busy_refresh_is_noop (api : ApiOutcome) (now : Nat) (s : StorageState)
    (h : s.isUpdating = true) :
    refreshContentFromAPI api now s = s := by
  simp [refreshContentFromAPI, h]

theorem C9_witness :
    refreshContentFromAPI ApiOutcome.apiError 99 busyState = busyState :=
  C9_busy_refresh_is_noop ApiOutcome.apiError 99 busyState (by decide)

/-- C2, counterexample: the claim says a failed refresh leaves the previously
stored table in place unchanged.  It does not: `refreshContentFromAPI` clears
the table before fetching, so a cycle that fails with a network/parse error
has already discarded the previous table. -/
theorem C2_counterexample :
    (refreshContentFromAPI ApiOutcome.apiError 9 previousState).content
      ≠ previousState.content := by decide

/-- C2, amended: a refresh cycle that fails entirely leaves the table empty
(and the id counter reset), not the previous table, because the table is
cleared at the start of the cycle before any fetching. -/
theorem C2_failed_refresh_clears_table (now : Nat) (s : StorageState)
    (h : s.isUpdating = false) :
    (refreshContentFromAPI ApiOutcome.apiError now s).content = []
      ∧ (refreshContentFromAPI ApiOutcome.apiError now s).currentContentId = 1 := by
  simp [refreshContentFromAPI, h, buildNetflixCatalogFromTMDB]

theorem C2_witness :
    (refreshContentFromAPI ApiOutcome.apiError 9 previousState).content = []
      ∧ (refreshContentFromAPI ApiOutcome.apiError 9 previousState).currentContentId = 1 :=
  C2_failed_refresh_clears_table 9 previousState (by decide)

/-- C4: with no rating selected, languages and genres empty or absent, and the
search query absent or blank, `filterContent` returns the entire table sorted
by title. -/
theorem C4_no_filters_return_whole_table (tbl : List Content)
    (languages genres : Option (List String)) (searchQuery : Option String)
    (hl : languages = none ∨ languages = some [])
    (hg : genres = none ∨ genres = some [])
    (hq : searchQuery = none ∨ ∃ q, searchQuery = some q ∧ trimStr q = "") :
    filterContent tbl [] languages genres searchQuery = sortByTitle tbl := by
  have hF : hasFilters [] languages genres searchQuery = false := by
    rcases hl with rfl | rfl <;> rcases hg with rfl | rfl <;>
      [rcases hq with rfl | ⟨q, rfl, hq2⟩; rcases hq with rfl | ⟨q, rfl, hq2⟩;
        rcases hq with rfl | ⟨q, rfl, hq2⟩; rcases hq with rfl | ⟨q, rfl, hq2⟩] <;>
      simp_all [hasFilters]
  simp [filterContent, hF]

theorem C4_witness :
    filterContent [itemZed, itemAB] [] (some []) none (some "  ")
      = sortByTitle [itemZed, itemAB] :=
  C4_no_filters_return_whole_table [itemZed, itemAB] (some []) none (some "  ")
    (Or.inr rfl) (Or.inl rfl) (Or.inr ⟨"  ", rfl, by decide⟩)

/-- C5: every list produced by `getAllContent`, `getContentByRating`,
`searchContent` and `filterContent` is sorted by title, for every state and
every argument. -/
theorem C5_results_sorted (s : StorageState) (r q : String) (tbl : List Content)
    (ratings : List String) (languages genres : Option (List String))
    (searchQuery : Option String) :
    List.Pairwise titleLe (getAllContent s)
      ∧ List.Pairwise titleLe (getContentByRating s r)
      ∧ List.Pairwise titleLe (searchContent s q)
      ∧ List.Pairwise titleLe (filterContent tbl ratings languages genres searchQuery) := by
  refine ⟨pairwise_sortByTitle _, pairwise_sortByTitle _, pairwise_sortByTitle _, ?_⟩
  rw [filterContent_eq_filter]
  exact pairwise_sortByTitle _

/-- C6: filtering is idempotent — running `filterContent` again, with the same
filters, on a result list treated as the table, returns that list. -/
theorem C6_filter_idempotent (tbl : List Content) (ratings : List String)
    (languages genres : Option (List String)) (searchQuery : Option String) :
    filterContent (filterContent tbl ratings languages genres searchQuery)
        ratings languages genres searchQuery
      = filterContent tbl ratings languages genres searchQuery := by
  rw [filterContent_eq_filter, filterContent_eq_filter]
  have hsub : (sortByTitle (tbl.filter (passesFilters ratings languages genres
      searchQuery))).filter (passesFilters ratings languages genres searchQuery)
      = sortByTitle (tbl.filter (passesFilters ratings languages genres searchQuery)) := by
    apply List.filter_eq_self.mpr
    intro a ha
    have ha2 := (mem_sortByTitle _ _).mp ha
    exact (List.mem_filter.mp ha2).2
  rw [hsub, sortByTitle_idem]

/-- C10: `getContentByRating r` computes the same list as `filterContent` with
the singleton ratings set `[r]`, absent (or empty) languages and genres, and
no search query. -/
theorem C10_getContentByRating_refines_filterContent (s : StorageState) (r : String) :
    getContentByRating s r = filterContent (contentValues s) [r] none none none
      ∧ getContentByRating s r
        = filterContent (contentValues s) [r] (some []) (some []) none := by
  constructor <;>
  · rw [filterContent_eq_filter]
    unfold getContentByRating
    congr 1
    apply List.filter_congr
    intro a _
    simp only [passesFilters, catPass, List.contains, List.any_cons, List.any_nil,
      Bool.or_false, List.isEmpty_cons, Bool.false_or, Bool.and_true]
    by_cases h : a.rating = r
    · simp [h]
    · simp [h, fun hh : r = a.rating => h hh.symm]

/-- C7: the four category passes commute — folding them over the table in any
order, then sorting, computes `filterContent`. -/
theorem C7_filter_categories_commute (tbl : List Content) (ratings : List String)
    (languages genres : Option (List String)) (searchQuery : Option String)
    (cs : List FilterCat)
    (h : cs.Perm [FilterCat.byRatings, FilterCat.byLanguages, FilterCat.byGenres,
      FilterCat.bySearch]) :
    sortByTitle (cs.foldl
        (fun acc cat => applyCat ratings languages genres searchQuery cat acc) tbl)
      = filterContent tbl ratings languages genres searchQuery := by
  rw [foldl_applyCat_eq_filter, filterContent_eq_filter]
  congr 1
  apply List.filter_congr
  intro a _
  rw [all_perm _ h]
  simp only [List.all_cons, List.all_nil, Bool.and_true, passesFilters]
  generalize catPass ratings languages genres searchQuery FilterCat.byRatings a = b1
  generalize catPass ratings languages genres searchQuery FilterCat.byLanguages a = b2
  generalize catPass ratings languages genres searchQuery FilterCat.byGenres a = b3
  generalize catPass ratings languages genres searchQuery FilterCat.bySearch a = b4
  cases b1 <;> cases b2 <;> cases b3 <;> cases b4 <;> rfl

theorem C7_witness :
    sortByTitle ([FilterCat.bySearch, FilterCat.byGenres, FilterCat.byLanguages,
        FilterCat.byRatings].foldl
        (fun acc cat => applyCat ["PG", "15"] (some ["English", "Korean"]) none
          (some "spooky") cat acc) [itemAB, itemZed, itemAlpha])
      = filterContent [itemAB, itemZed, itemAlpha] ["PG", "15"]
          (some ["English", "Korean"]) none (some "spooky") :=
  C7_filter_categories_commute [itemAB, itemZed, itemAlpha] ["PG", "15"]
    (some ["English", "Korean"]) none (some "spooky")
    [FilterCat.bySearch, FilterCat.byGenres, FilterCat.byLanguages, FilterCat.byRatings]
    (by decide)

/-- C1, counterexample: the claim's search constraint matches the query
verbatim, but the code trims it first — on the query `" a "` the code keeps
an item titled `ab` that the claim's constraint rejects. -/
theorem C1_counterexample :
    filterContent [itemAB] [] none none (some " a ")
      ≠ specFilterC1 [itemAB] [] none none (some " a ") := by decide

/-- C1, amended: `filterContent` returns exactly the items of the table
passing every supplied non-empty constraint (membership within a category,
conjunction across categories), sorted by title — where the search constraint
counts as non-empty only when the query is not blank after trimming, and
matches the lowercased, whitespace-trimmed query against title, genre or
description. -/
theorem C1_filterContent_matches_amended_spec (tbl : List Content) (ratings : List String)
    (languages genres : Option (List String)) (searchQuery : Option String) :
    filterContent tbl ratings languages genres searchQuery
      = specFilterC1Amended tbl ratings languages genres searchQuery := by
  rw [filterContent_eq_filter]
  unfold specFilterC1Amended
  congr 1
  apply List.filter_congr
  intro a _
  simp only [passesFilters, catPass, specPassesC1Amended]
  rcases languages with _ | ls <;> rcases genres with _ | gs <;>
    rcases searchQuery with _ | q <;> simp [Bool.or_assoc, Bool.and_assoc]

/-- The state at the start of a non-skipped refresh cycle: busy flag set,
table cleared, id counter reset (storage module lines 111-113). -/
def clearedState (s : StorageState) : StorageState :=
  { s with isUpdating := true, content := [], currentContentId := 1 }

theorem processItems_inv (items : List (Option TMDBDetail)) (s : StorageState)
    (hid : ∀ p ∈ s.content, p.2.id = p.1)
    (hlt : ∀ p ∈ s.content, p.1 < s.currentContentId)
    (hpw : List.Pairwise (fun a b => a ≠ b) (s.content.map Prod.fst)) :
    (∀ p ∈ (items.foldl processItem s).content, p.2.id = p.1)
      ∧ (∀ p ∈ (items.foldl processItem s).content,
          p.1 < (items.foldl processItem s).currentContentId)
      ∧ List.Pairwise (fun a b => a ≠ b)
          ((items.foldl processItem s).content.map Prod.fst) := by
  induction items generalizing s with
  | nil => exact ⟨hid, hlt, hpw⟩
  | cons it its ih =>
    rw [List.foldl_cons]
    cases it with
    | none => exact ih s hid hlt hpw
    | some d =>
      have hstep : processItem s (some d)
          = { s with
              content := s.content
                ++ [(s.currentContentId, mkContent s.currentContentId d)]
              currentContentId := s.currentContentId + 1 } := rfl
      rw [hstep]
      refine ih _ ?_ ?_ ?_
      · intro p hp
        rcases List.mem_append.mp hp with h | h
        · exact hid p h
        · rw [List.mem_singleton.mp h]; rfl
      · intro p hp
        rcases List.mem_append.mp hp with h | h
        · exact Nat.lt_succ_of_lt (hlt p h)
        · rw [List.mem_singleton.mp h]; exact Nat.lt_succ_self _
      · rw [List.map_append]
        apply List.pairwise_append.mpr
        refine ⟨hpw, by simp, ?_⟩
        intro a ha b hb
        have hb2 : b = s.currentContentId := by simpa using hb
        rcases List.mem_map.mp ha with ⟨p, hp, rfl⟩
        rw [hb2]
        exact Nat.ne_of_lt (hlt p hp)

/-- C8: identifiers are unique in the table and each stored item's `id` field
equals its key; the invariant holds of the initial state and is preserved by
every refresh cycle (a complete rebuild as well as a skipped or failed one) —
the read operations do not touch the table. -/
theorem C8_unique_ids_invariant :
    UniqueIds initialState
      ∧ ∀ (api : ApiOutcome) (now : Nat) (s : StorageState),
          UniqueIds s → UniqueIds (refreshContentFromAPI api now s) := by
  constructor
  · exact ⟨List.Pairwise.nil, fun p hp => absurd hp (by simp [initialState])⟩
  · intro api now s hs
    cases hb : s.isUpdating with
    | true =>
      have hself : refreshContentFromAPI api now s = s := by
        simp [refreshContentFromAPI, hb]
      rw [hself]; exact hs
    | false =>
      cases api with
      | apiError =>
        have hc : (refreshContentFromAPI ApiOutcome.apiError now s).content = [] := by
          simp [refreshContentFromAPI, hb, buildNetflixCatalogFromTMDB]
        constructor
        · rw [hc]; exact List.Pairwise.nil
        · intro p hp; rw [hc] at hp; exact absurd hp (List.not_mem_nil p)
      | apiOk items =>
        obtain ⟨h1, h2, h3⟩ := processItems_inv items (clearedState s)
          (fun p hp => absurd hp (by simp [clearedState]))
          (fun p hp => absurd hp (by simp [clearedState]))
          (by simp [clearedState])
        have hc : (refreshContentFromAPI (ApiOutcome.apiOk items) now s).content
            = (items.foldl processItem (clearedState s)).content := by
          simp only [refreshContentFromAPI, hb, Bool.false_eq_true, if_false,
            buildNetflixCatalogFromTMDB, clearedState]
          split <;> rfl
        constructor
        · rw [hc]; exact h3
        · intro p hp; rw [hc] at hp; exact h1 p hp

theorem C8_witness :
    UniqueIds initialState
      ∧ UniqueIds (refreshContentFromAPI
          (ApiOutcome.apiOk [some sampleDetail, none, some sampleDetail2]) 7
          previousState) :=
  ⟨C8_unique_ids_invariant.1,
    C8_unique_ids_invariant.2
      (ApiOutcome.apiOk [some sampleDetail, none, some sampleDetail2]) 7
      previousState (by decide)⟩

end NetflixUK
